import Mathlib

/-!
Shallow embedding of the watermelon sync endpoint
(`src/server/routers/sync.ts`): the push reconciler (`pushChanges`)
and the pull partitioner (`pullChanges`), together with the data model
they operate on.  Machine state (the Prisma task table) is modelled as a
list of stored tasks; fallible store operations return `Except`.
-/

namespace Watermelon

/-- Wire-level task record, the shape accepted and produced by the sync
endpoint (`zTask` in the source): flag and timestamp fields use
underscore names; `is_urgent` and `comment` are optional. -/
structure WireTask where
  id : String
  name : String
  icon : String
  is_done : Bool
  is_urgent : Option Bool
  comment : Option String
  created_at : Int
  updated_at : Int
deriving Repr, DecidableEq

/-- Stored task record (the `Task` row): camel-case domain fields plus the
server-assigned watermark fields `serverCreatedAt` / `serverUpdatedAt`.
`isUrgent` and `comment` may be unset, mirroring the optional wire fields. -/
structure Task where
  id : String
  name : String
  icon : String
  isDone : Bool
  isUrgent : Option Bool
  comment : Option String
  createdAt : Int
  updatedAt : Int
  serverCreatedAt : Int
  serverUpdatedAt : Int
deriving Repr, DecidableEq

/-- The update object pushed onto `updatedTasks` in the source: required
fields are always present, `isUrgent` / `comment` are included only when
present in the inbound payload (`none` models the spread that omits the
key), and `updatedAt` carries the client timestamp. -/
structure TaskPatch where
  id : String
  name : String
  icon : String
  isDone : Bool
  isUrgent : Option Bool
  comment : Option String
  updatedAt : Int
deriving Repr, DecidableEq

/-- `tasks` member of `zDatabaseChanges`: the three arrays are optional on
the wire. -/
structure TaskChanges where
  created : Option (List WireTask)
  updated : Option (List WireTask)
  deleted : Option (List String)
deriving Repr, DecidableEq

/-- `zDatabaseChanges`. -/
structure DatabaseChanges where
  tasks : TaskChanges
deriving Repr, DecidableEq

/-- Input of `pushChanges`. -/
structure PushInput where
  changes : DatabaseChanges
  lastPulledAt : Option Int
deriving Repr, DecidableEq

/-- Input of `pullChanges`: `lastPulledAt` and `migration` are nullable. -/
structure PullInput where
  lastPulledAt : Option Int
  schemaVersion : Int
  migration : Option String
deriving Repr, DecidableEq

/-- Output of `pullChanges`. -/
structure PullResponse where
  changes : DatabaseChanges
  timestamp : Int
deriving Repr, DecidableEq

/-- The task table: the only mutable store the endpoint touches. -/
abbrev Store := List Task

/-- `tx.task.findUnique (where id)`: first stored record with the given id. -/
def findUnique (store : Store) (i : String) : Option Task :=
  store.find? (fun t => t.id == i)

/-- Rename a stored record to its wire shape, as done by the two `map`
calls in the pull response. -/
def taskToWire (t : Task) : WireTask :=
  { id := t.id
    name := t.name
    icon := t.icon
    is_done := t.isDone
    is_urgent := t.isUrgent
    comment := t.comment
    created_at := t.createdAt
    updated_at := t.updatedAt }

/-! ### Model of `JSON.parse`

`pullChanges` calls the platform `JSON.parse` on the `migration` string
without a guard.  We model it with an executable recursive-descent
reader of the JSON grammar (null, booleans, numbers as rationals,
strings with the standard escapes, arrays, objects); a syntax error is
an `Except.error`, mirroring the thrown `SyntaxError`. -/

/-- JSON values. -/
inductive Json where
  | null : Json
  | bool : Bool → Json
  | num : Rat → Json
  | str : String → Json
  | arr : List Json → Json
  | obj : List (String × Json) → Json

/-- JSON insignificant whitespace. -/
def skipWs : List Char → List Char
  | c :: cs =>
    if c = ' ' ∨ c = '\t' ∨ c = '\n' ∨ c = '\r' then skipWs cs else c :: cs
  | [] => []

def isDigitChar (c : Char) : Bool :=
  decide ('0' ≤ c) && decide (c ≤ '9')

/-- Longest digit run at the head of the input. -/
def takeDigits : List Char → List Char × List Char
  | c :: cs =>
    if isDigitChar c then
      let p := takeDigits cs
      (c :: p.1, p.2)
    else ([], c :: cs)
  | [] => ([], [])

def digitsToNat (acc : Nat) : List Char → Nat
  | [] => acc
  | c :: cs => digitsToNat (acc * 10 + (c.toNat - Char.toNat '0')) cs

/-- Optional fraction part after the integer part of a JSON number. -/
def parseFrac (intPart : Nat) (cs : List Char) : Option (Rat × List Char) :=
  match cs with
  | '.' :: r =>
    let p := takeDigits r
    if p.1.isEmpty then none
    else
      some (((intPart * 10 ^ p.1.length + digitsToNat 0 p.1 : Nat) : Rat) /
        ((10 ^ p.1.length : Nat) : Rat), p.2)
  | _ => some ((intPart : Rat), cs)

/-- Optional exponent part of a JSON number. -/
def parseExpPart (q : Rat) (cs : List Char) : Option (Rat × List Char) :=
  match cs with
  | c :: r =>
    if c = 'e' ∨ c = 'E' then
      match r with
      | '+' :: r2 =>
        let p := takeDigits r2
        if p.1.isEmpty then none else some (q * ((10 ^ digitsToNat 0 p.1 : Nat) : Rat), p.2)
      | '-' :: r2 =>
        let p := takeDigits r2
        if p.1.isEmpty then none else some (q / ((10 ^ digitsToNat 0 p.1 : Nat) : Rat), p.2)
      | _ =>
        let p := takeDigits r
        if p.1.isEmpty then none else some (q * ((10 ^ digitsToNat 0 p.1 : Nat) : Rat), p.2)
    else some (q, cs)
  | [] => some (q, [])

/-- Non-negative JSON number (leading-zero rule included). -/
def parseUnsigned (cs : List Char) : Option (Rat × List Char) :=
  match cs with
  | c :: r =>
    if c = '0' then
      match parseFrac 0 r with
      | some p => parseExpPart p.1 p.2
      | none => none
    else if isDigitChar c then
      let d := takeDigits r
      match parseFrac (digitsToNat 0 (c :: d.1)) d.2 with
      | some p => parseExpPart p.1 p.2
      | none => none
    else none
  | [] => none

/-- JSON number with optional sign. -/
def parseNumber (cs : List Char) : Option (Rat × List Char) :=
  match cs with
  | '-' :: r => (parseUnsigned r).map (fun p => (-p.1, p.2))
  | _ => parseUnsigned cs

/-- Single-character JSON string escapes. -/
def escChar (e : Char) : Option Char :=
  if e = '"' then some '"'
  else if e = '\\' then some '\\'
  else if e = '/' then some '/'
  else if e = 'b' then some (Char.ofNat 8)
  else if e = 'f' then some (Char.ofNat 12)
  else if e = 'n' then some '\n'
  else if e = 'r' then some (Char.ofNat 13)
  else if e = 't' then some (Char.ofNat 9)
  else none

def hexVal (c : Char) : Option Nat :=
  if decide ('0' ≤ c) && decide (c ≤ '9') then some (c.toNat - Char.toNat '0')
  else if decide ('a' ≤ c) && decide (c ≤ 'f') then some (c.toNat - Char.toNat 'a' + 10)
  else if decide ('A' ≤ c) && decide (c ≤ 'F') then some (c.toNat - Char.toNat 'A' + 10)
  else none

/-- Body of a JSON string after the opening quote; returns the decoded
characters and the input after the closing quote. -/
def parseStringChars : List Char → Option (List Char × List Char)
  | [] => none
  | '"' :: rest => some ([], rest)
  | '\\' :: e :: rest =>
    match escChar e with
    | some ch => (parseStringChars rest).map (fun p => (ch :: p.1, p.2))
    | none =>
      if e = 'u' then
        match rest with
        | h1 :: h2 :: h3 :: h4 :: rest4 =>
          match hexVal h1, hexVal h2, hexVal h3, hexVal h4 with
          | some a, some b, some c, some d =>
            (parseStringChars rest4).map
              (fun p => (Char.ofNat (((a * 16 + b) * 16 + c) * 16 + d) :: p.1, p.2))
          | _, _, _, _ => none
        | _ => none
      else none
  | c :: rest =>
    if c.toNat < 32 then none
    else (parseStringChars rest).map (fun p => (c :: p.1, p.2))

mutual

/-- One JSON value, fuelled. -/
def parseValue : Nat → List Char → Option (Json × List Char)
  | 0, _ => none
  | Nat.succ fuel, cs =>
    match skipWs cs with
    | 'n' :: 'u' :: 'l' :: 'l' :: rest => some (Json.null, rest)
    | 't' :: 'r' :: 'u' :: 'e' :: rest => some (Json.bool true, rest)
    | 'f' :: 'a' :: 'l' :: 's' :: 'e' :: rest => some (Json.bool false, rest)
    | '"' :: rest =>
      match parseStringChars rest with
      | some p => some (Json.str (String.mk p.1), p.2)
      | none => none
    | '[' :: rest =>
      match parseElems fuel rest with
      | some p => some (Json.arr p.1, p.2)
      | none => none
    | '\x7b' :: rest =>
      match parseMembers fuel rest with
      | some p => some (Json.obj p.1, p.2)
      | none => none
    | c :: rest =>
      if c = '-' ∨ isDigitChar c then
        match parseNumber (c :: rest) with
        | some p => some (Json.num p.1, p.2)
        | none => none
      else none
    | [] => none

/-- Array elements after the opening bracket. -/
def parseElems : Nat → List Char → Option (List Json × List Char)
  | 0, _ => none
  | Nat.succ fuel, cs =>
    match skipWs cs with
    | ']' :: rest => some ([], rest)
    | cs2 =>
      match parseValue fuel cs2 with
      | some p =>
        match parseElemsTail fuel p.2 with
        | some q => some (p.1 :: q.1, q.2)
        | none => none
      | none => none

/-- Array elements after the first one. -/
def parseElemsTail : Nat → List Char → Option (List Json × List Char)
  | 0, _ => none
  | Nat.succ fuel, cs =>
    match skipWs cs with
    | ']' :: rest => some ([], rest)
    | ',' :: rest =>
      match parseValue fuel rest with
      | some p =>
        match parseElemsTail fuel p.2 with
        | some q => some (p.1 :: q.1, q.2)
        | none => none
      | none => none
    | _ => none

/-- One `"key": value` object member. -/
def parseMember : Nat → List Char → Option ((String × Json) × List Char)
  | 0, _ => none
  | Nat.succ fuel, cs =>
    match skipWs cs with
    | '"' :: rest =>
      match parseStringChars rest with
      | some p =>
        match skipWs p.2 with
        | ':' :: r2 =>
          match parseValue fuel r2 with
          | some q => some ((String.mk p.1, q.1), q.2)
          | none => none
        | _ => none
      | none => none
    | _ => none

/-- Object members after the opening brace. -/
def parseMembers : Nat → List Char → Option (List (String × Json) × List Char)
  | 0, _ => none
  | Nat.succ fuel, cs =>
    match skipWs cs with
    | '\x7d' :: rest => some ([], rest)
    | cs2 =>
      match parseMember fuel cs2 with
      | some p =>
        match parseMembersTail fuel p.2 with
        | some q => some (p.1 :: q.1, q.2)
        | none => none
      | none => none

/-- Object members after the first one. -/
def parseMembersTail : Nat → List Char → Option (List (String × Json) × List Char)
  | 0, _ => none
  | Nat.succ fuel, cs =>
    match skipWs cs with
    | '\x7d' :: rest => some ([], rest)
    | ',' :: rest =>
      match parseMember fuel rest with
      | some p =>
        match parseMembersTail fuel p.2 with
        | some q => some (p.1 :: q.1, q.2)
        | none => none
      | none => none
    | _ => none

end

/-- `JSON.parse`: a single value with only trailing whitespace; anything
else throws a `SyntaxError`. -/
def parseJson (s : String) : Except String Json :=
  match parseValue (2 * s.length + 2) s.data with
  | some p => if (skipWs p.2).isEmpty then Except.ok p.1 else Except.error "SyntaxError"
  | none => Except.error "SyntaxError"

/-- Last binding of a key in a JSON object, mirroring the
later-key-wins semantics of `JSON.parse` on duplicate keys. -/
def lookupLast (ms : List (String × Json)) (k : String) : Option Json :=
  ms.foldl (fun acc p => if p.1 = k then some p.2 else acc) none

/-- The JavaScript test `migration?.from < 2` on a parsed JSON value.
Only a numeric `from` compares meaningfully; `null` and booleans coerce
to numbers 0 and 0/1 (all below 2); a missing `from`, a non-object
value, or any other operand type is treated as not-less (string-to-number
coercion is not modelled). -/
def jsFromLt2 (j : Json) : Bool :=
  match j with
  | Json.obj ms =>
    match lookupLast ms "from" with
    | some Json.null => true
    | some (Json.bool _) => true
    | some (Json.num q) => decide (q < 2)
    | _ => false
  | _ => false

/-- JavaScript truthiness of the nullable `migration` string: `null` and
the empty string are falsy. -/
def jsTruthyString (s : Option String) : Bool :=
  match s with
  | none => false
  | some v => !(v == "")

/-- Watermark normalization in `pullChanges`:
`let safeLastPulledAt = 1; if (!!input.lastPulledAt) safeLastPulledAt =
input.lastPulledAt`.  JavaScript truthiness on a nullable number: `null`
and `0` are falsy. -/
def safeLastPulledAt (lastPulledAt : Option Int) : Int :=
  match lastPulledAt with
  | none => 1
  | some v => if v ≠ 0 then v else 1

/-- The `createdTasks` query: `serverCreatedAt > safeLastPulledAt`. -/
def createdQuery (w : Int) (store : Store) : Store :=
  store.filter (fun t => decide (w < t.serverCreatedAt))

/-- The `updatedTasks` query:
`serverUpdatedAt > safeLastPulledAt AND serverCreatedAt <= safeLastPulledAt`. -/
def updatedQuery (w : Int) (store : Store) : Store :=
  store.filter (fun t => decide (w < t.serverUpdatedAt) && decide (t.serverCreatedAt ≤ w))

/-- The response object built at the end of `pullChanges` from the two
result sets: both are renamed to wire shape, `deleted` is always empty,
`timestamp` is the pull's wall-clock time. -/
def mkPullResponse (nowTs : Int) (createdTasks updatedTasks : Store) : PullResponse :=
  { changes :=
      { tasks :=
          { created := some (createdTasks.map taskToWire)
            updated := some (updatedTasks.map taskToWire)
            deleted := some [] } }
    timestamp := nowTs }

/-- `pullChanges`: normalize the watermark, run the two partition
queries, apply the migration override (schema version at least 2 and a
truthy migration string whose parsed `from` is below 2 replaces the
updated set with the whole table; the parse error of an invalid string
propagates), and shape the response. -/
def pullChanges (nowTs : Int) (input : PullInput) (store : Store) :
    Except String PullResponse :=
  let safe := safeLastPulledAt input.lastPulledAt
  let createdTasks := createdQuery safe store
  let updatedTasks := updatedQuery safe store
  if decide (2 ≤ input.schemaVersion) && jsTruthyString input.migration then
    match parseJson (input.migration.getD "") with
    | Except.error e => Except.error e
    | Except.ok mig =>
      Except.ok (mkPullResponse nowTs createdTasks
        (if jsFromLt2 mig then store else updatedTasks))
  else
    Except.ok (mkPullResponse nowTs createdTasks updatedTasks)

/-- Whether a pull input takes the migration full-resync branch. -/
def migrationOverrideActive (input : PullInput) : Bool :=
  decide (2 ≤ input.schemaVersion) && jsTruthyString input.migration &&
    (match parseJson (input.migration.getD "") with
     | Except.ok j => jsFromLt2 j
     | Except.error _ => false)

/-! ### Push reconciler -/

/-- The update object built by `pushChanges` from an inbound record,
identical in the reclassified-create and the original-update branches:
required fields always, `isUrgent` / `comment` only when present. -/
def toPatch (w : WireTask) : TaskPatch :=
  { id := w.id
    name := w.name
    icon := w.icon
    isDone := w.is_done
    isUrgent := w.is_urgent
    comment := w.comment
    updatedAt := w.updated_at }

/-- The row staged for `createMany` from a genuine create:
both server watermarks are stamped with the transaction-wide `now`. -/
def newTask (now : Int) (w : WireTask) : Task :=
  { id := w.id
    name := w.name
    icon := w.icon
    isDone := w.is_done
    isUrgent := w.is_urgent
    comment := w.comment
    createdAt := w.created_at
    updatedAt := w.updated_at
    serverCreatedAt := now
    serverUpdatedAt := now }

/-- The loop over `changes.tasks.created`: each inbound create is looked
up in the store as it was at transaction start; a hit is reclassified as
an update patch, a miss is staged as a genuine create. -/
def stageCreates (now : Int) (store : Store) :
    List WireTask → Store × List TaskPatch
  | [] => ([], [])
  | c :: rest =>
    let r := stageCreates now store rest
    match findUnique store c.id with
    | some _ => (r.1, toPatch c :: r.2)
    | none => (newTask now c :: r.1, r.2)

/-- `tx.task.createMany`: fails on a unique-key violation (a staged id
already stored, or duplicated within the batch), otherwise appends. -/
def createMany (store : Store) (rows : Store) : Except String Store :=
  if (rows.map (fun t => t.id)).Nodup ∧ ∀ t ∈ rows, findUnique store t.id = none then
    Except.ok (store ++ rows)
  else Except.error "Unique constraint failed"

/-- Applying one update patch: required fields and the client timestamp
overwrite, optional fields overwrite only when present, `serverUpdatedAt`
is stamped with `now`; `id`, `createdAt` and `serverCreatedAt` are not
in the update data and stay as stored. -/
def applyPatch (now : Int) (t : Task) (p : TaskPatch) : Task :=
  { t with
    name := p.name
    icon := p.icon
    isDone := p.isDone
    isUrgent := match p.isUrgent with
      | some b => some b
      | none => t.isUrgent
    comment := match p.comment with
      | some c => some c
      | none => t.comment
    updatedAt := p.updatedAt
    serverUpdatedAt := now }

/-- `tx.task.update (where id)`: fails when no stored record has the
patch's id, otherwise rewrites that record. -/
def updateOne (now : Int) (store : Store) (p : TaskPatch) : Except String Store :=
  if (findUnique store p.id).isSome then
    Except.ok (store.map (fun t => if t.id = p.id then applyPatch now t p else t))
  else Except.error "Record to update not found"

/-- The `updateQueries` batch: every staged patch must apply. -/
def applyPatches (now : Int) (ps : List TaskPatch) (store : Store) :
    Except String Store :=
  match ps with
  | [] => Except.ok store
  | p :: rest =>
    match updateOne now store p with
    | Except.ok store1 => applyPatches now rest store1
    | Except.error e => Except.error e

/-- `pushChanges`: one transaction with a single `now`; inbound creates
are staged or reclassified, genuine creates inserted via `createMany`,
then the reclassified patches followed by the inbound update patches are
applied.  Any store failure aborts the whole push. -/
def pushChanges (now : Int) (input : PushInput) (store : Store) :
    Except String Store :=
  let staged := stageCreates now store (input.changes.tasks.created.getD [])
  match createMany store staged.1 with
  | Except.error e => Except.error e
  | Except.ok store1 =>
    applyPatches now (staged.2 ++ (input.changes.tasks.updated.getD []).map toPatch) store1

/-! ### Concrete fixtures used by witnesses and counterexamples -/

/-- The migration descriptor exercised by the spec's test property:
the JSON text of an object whose `from` field is 1. -/
def migFrom1 : String := "\x7b\"from\":1\x7d"

/-- A migration string that is not valid JSON. -/
def notJson : String := "not json"

/-- A sample inbound wire record. -/
def exWire : WireTask :=
  { id := "t1"
    name := "water"
    icon := "ic"
    is_done := false
    is_urgent := none
    comment := some "old"
    created_at := 2
    updated_at := 3 }

/-- A second sample inbound wire record with a distinct id. -/
def exWire2 : WireTask :=
  { id := "t2"
    name := "melon"
    icon := "ic2"
    is_done := true
    is_urgent := some false
    comment := none
    created_at := 4
    updated_at := 4 }

/-- A stored record first persisted at server time 5. -/
def exTask : Task := newTask 5 exWire

/-- An inbound payload for the id of `exTask`, omitting `comment`. -/
def exUpd : WireTask :=
  { id := "t1"
    name := "updated water"
    icon := "ic3"
    is_done := true
    is_urgent := some true
    comment := none
    created_at := 2
    updated_at := 9 }

/-- A push input carrying one genuine create. -/
def exPushNew : PushInput :=
  { changes := { tasks := { created := some [exWire], updated := none, deleted := none } }
    lastPulledAt := none }

/-- A push input carrying one original update for `exTask`. -/
def exPushUpd : PushInput :=
  { changes := { tasks := { created := none, updated := some [exUpd], deleted := none } }
    lastPulledAt := none }

/-! ### Helper lemmas about the store operations -/

theorem toPatch_id (w : WireTask) : (toPatch w).id = w.id := rfl

theorem newTask_id (now : Int) (w : WireTask) : (newTask now w).id = w.id := rfl

theorem applyPatch_id (now : Int) (t : Task) (p : TaskPatch) :
    (applyPatch now t p).id = t.id := rfl

theorem applyPatch_serverCreatedAt (now : Int) (t : Task) (p : TaskPatch) :
    (applyPatch now t p).serverCreatedAt = t.serverCreatedAt := rfl

theorem applyPatch_serverUpdatedAt (now : Int) (t : Task) (p : TaskPatch) :
    (applyPatch now t p).serverUpdatedAt = now := rfl

theorem findUnique_eq_none_iff {store : Store} {i : String} :
    findUnique store i = none ↔ ∀ t ∈ store, t.id ≠ i := by
  simp [findUnique, List.find?_eq_none]

theorem findUnique_some_mem {store : Store} {i : String} {t : Task}
    (h : findUnique store i = some t) : t ∈ store ∧ t.id = i := by
  have h' : store.find? (fun u => u.id == i) = some t := h
  refine ⟨List.mem_of_find?_eq_some h', ?_⟩
  simpa using List.find?_some h'

theorem createMany_nil (store : Store) : createMany store [] = Except.ok store := by
  simp [createMany]

theorem createMany_ok {store rows store1 : Store}
    (h : createMany store rows = Except.ok store1) :
    store1 = store ++ rows ∧ ∀ t ∈ rows, findUnique store t.id = none := by
  unfold createMany at h
  split at h
  · rename_i hc
    injection h with h
    exact ⟨h.symm, hc.2⟩
  · exact Except.noConfusion h

theorem stageCreates_stamped {now : Int} {store : Store} {l : List WireTask} :
    ∀ t ∈ (stageCreates now store l).1,
      t.serverCreatedAt = now ∧ t.serverUpdatedAt = now := by
  induction l with
  | nil => simp [stageCreates]
  | cons c rest ih =>
    intro t ht
    cases hf : findUnique store c.id with
    | some u =>
      rw [stageCreates, hf] at ht
      exact ih t ht
    | none =>
      rw [stageCreates, hf] at ht
      rcases List.mem_cons.mp ht with h | h
      · subst h; exact ⟨rfl, rfl⟩
      · exact ih t h

theorem stageCreates_fresh {now : Int} {store : Store} {l : List WireTask} :
    ∀ t ∈ (stageCreates now store l).1, findUnique store t.id = none := by
  induction l with
  | nil => simp [stageCreates]
  | cons c rest ih =>
    intro t ht
    cases hf : findUnique store c.id with
    | some u =>
      rw [stageCreates, hf] at ht
      exact ih t ht
    | none =>
      rw [stageCreates, hf] at ht
      rcases List.mem_cons.mp ht with h | h
      · subst h; exact hf
      · exact ih t h

theorem stageCreates_empty_store {now : Int} {l : List WireTask} :
    stageCreates now ([] : Store) l = (l.map (newTask now), []) := by
  induction l with
  | nil => simp [stageCreates]
  | cons c rest ih => simp [stageCreates, findUnique, ih]

theorem applyPatches_trace {now : Int} {ps : List TaskPatch} :
    ∀ {s s' : Store}, applyPatches now ps s = Except.ok s' →
      ∀ t' ∈ s', ∃ t ∈ s, t'.id = t.id ∧ t'.serverCreatedAt = t.serverCreatedAt ∧
        (t'.serverUpdatedAt = t.serverUpdatedAt ∨ t'.serverUpdatedAt = now) := by
  induction ps with
  | nil =>
    intro s s' h t' ht'
    rw [applyPatches] at h
    injection h with h
    subst h
    exact ⟨t', ht', rfl, rfl, Or.inl rfl⟩
  | cons p rest ih =>
    intro s s' h t' ht'
    rw [applyPatches] at h
    cases hu : updateOne now s p with
    | error e => rw [hu] at h; exact Except.noConfusion h
    | ok s1 =>
      rw [hu] at h
      obtain ⟨t1, ht1, hid, hsc, hsu⟩ := ih h t' ht'
      unfold updateOne at hu
      split at hu
      · injection hu with hu
        subst hu
        obtain ⟨t0, ht0, heq⟩ := List.mem_map.mp ht1
        by_cases hid0 : t0.id = p.id
        · rw [if_pos hid0] at heq
          subst heq
          refine ⟨t0, ht0, hid, hsc, Or.inr ?_⟩
          rcases hsu with h1 | h1
          · exact h1
          · exact h1
        · rw [if_neg hid0] at heq
          subst heq
          exact ⟨t0, ht0, hid, hsc, hsu⟩
      · exact Except.noConfusion hu

theorem pullChanges_not_migrating {nowTs : Int} {input : PullInput} {store : Store}
    (hc : (decide (2 ≤ input.schemaVersion) && jsTruthyString input.migration) = false) :
    pullChanges nowTs input store =
      Except.ok (mkPullResponse nowTs
        (createdQuery (safeLastPulledAt input.lastPulledAt) store)
        (updatedQuery (safeLastPulledAt input.lastPulledAt) store)) := by
  simp [pullChanges, hc]

theorem pullChanges_migrating {nowTs : Int} {input : PullInput} {store : Store} {j : Json}
    (hc : (decide (2 ≤ input.schemaVersion) && jsTruthyString input.migration) = true)
    (hp : parseJson (input.migration.getD "") = Except.ok j) :
    pullChanges nowTs input store =
      Except.ok (mkPullResponse nowTs
        (createdQuery (safeLastPulledAt input.lastPulledAt) store)
        (if jsFromLt2 j then store
         else updatedQuery (safeLastPulledAt input.lastPulledAt) store)) := by
  simp [pullChanges, hc, hp]

theorem pullChanges_parse_error {nowTs : Int} {input : PullInput} {store : Store} {e : String}
    (hc : (decide (2 ≤ input.schemaVersion) && jsTruthyString input.migration) = true)
    (hp : parseJson (input.migration.getD "") = Except.error e) :
    pullChanges nowTs input store = Except.error e := by
  simp [pullChanges, hc, hp]

/-! ### Claim theorems: pull partitioner -/

/-- Claim C1, counterexample: with the migration override active
(schemaVersion 2, migration from 1) and watermark 1, the stored record
`exTask` (serverCreatedAt 5 > 1) is placed in both the created and the
updated set of the same pull response, so the disjoint-partition claim
fails when the override is active. -/
theorem pull_disjoint_migration_counterexample :
    pullChanges 100 { lastPulledAt := some 1, schemaVersion := 2, migration := some migFrom1 }
        [exTask] = Except.ok (mkPullResponse 100 [exTask] [exTask]) ∧
    (mkPullResponse 100 [exTask] [exTask]).changes.tasks.created = some [taskToWire exTask] ∧
    (mkPullResponse 100 [exTask] [exTask]).changes.tasks.updated = some [taskToWire exTask] :=
  ⟨rfl, rfl, rfl⟩

/-- Claim C1 (amended): whenever the migration override is not active,
every successful pull response's created and updated sets are the two
watermark queries, and no stored record belongs to both queries: the
partition is disjoint. -/
theorem pull_disjoint_partition_no_override
    (nowTs : Int) (input : PullInput) (store : Store) (resp : PullResponse)
    (hov : migrationOverrideActive input = false)
    (h : pullChanges nowTs input store = Except.ok resp) :
    (∀ t : Task,
        ¬(t ∈ createdQuery (safeLastPulledAt input.lastPulledAt) store ∧
          t ∈ updatedQuery (safeLastPulledAt input.lastPulledAt) store)) ∧
    resp = mkPullResponse nowTs
      (createdQuery (safeLastPulledAt input.lastPulledAt) store)
      (updatedQuery (safeLastPulledAt input.lastPulledAt) store) := by
  constructor
  · rintro t ⟨h1, h2⟩
    rw [createdQuery, List.mem_filter] at h1
    rw [updatedQuery, List.mem_filter] at h2
    have a1 := of_decide_eq_true h1.2
    have a2 := h2.2
    simp only [Bool.and_eq_true, decide_eq_true_eq] at a2
    omega
  · cases hc : (decide (2 ≤ input.schemaVersion) && jsTruthyString input.migration) with
    | false =>
      rw [pullChanges_not_migrating hc] at h
      injection h with h
      exact h.symm
    | true =>
      cases hp : parseJson (input.migration.getD "") with
      | error e =>
        rw [pullChanges_parse_error hc hp] at h
        exact Except.noConfusion h
      | ok j =>
        have hlt : jsFromLt2 j = false := by
          unfold migrationOverrideActive at hov
          rw [hc, hp] at hov
          simpa using hov
        rw [pullChanges_migrating hc hp, hlt] at h
        simp only [Bool.false_eq_true, if_false] at h
        injection h with h
        exact h.symm

/-- Claim C1 witness: a concrete non-override pull on one stored record,
with the record not in both queries. -/
theorem pull_disjoint_partition_no_override_witness :
    ¬(exTask ∈ createdQuery (safeLastPulledAt (some 3)) [exTask] ∧
      exTask ∈ updatedQuery (safeLastPulledAt (some 3)) [exTask]) :=
  (pull_disjoint_partition_no_override 100
      { lastPulledAt := some 3, schemaVersion := 1, migration := none } [exTask]
      (mkPullResponse 100 [exTask] []) (by rfl) (by rfl)).1 exTask

/-- Claim C3: with schemaVersion at least 2 and a non-empty migration
string parsing to an object whose from field is below 2, pull returns
every stored record in the updated set regardless of the watermark,
while the created set keeps its watermark partition. -/
theorem pull_migration_full_resync
    (nowTs : Int) (w : Option Int) (sv : Int) (s : String) (j : Json) (store : Store)
    (hsv : 2 ≤ sv) (hs : s ≠ "") (hj : parseJson s = Except.ok j)
    (hlt : jsFromLt2 j = true) :
    pullChanges nowTs { lastPulledAt := w, schemaVersion := sv, migration := some s } store =
      Except.ok (mkPullResponse nowTs (createdQuery (safeLastPulledAt w) store) store) := by
  rw [pullChanges_migrating (by simp [jsTruthyString, hsv, hs]) (by simpa using hj), hlt]
  simp

/-- Claim C3 witness: the spec's test property at watermark 9 on one
stored record. -/
theorem pull_migration_full_resync_witness :
    pullChanges 100 { lastPulledAt := some 9, schemaVersion := 2, migration := some migFrom1 }
        [exTask] =
      Except.ok (mkPullResponse 100 (createdQuery (safeLastPulledAt (some 9)) [exTask]) [exTask]) :=
  pull_migration_full_resync 100 (some 9) 2 migFrom1 (Json.obj [("from", Json.num 1)]) [exTask]
    (by decide) (by decide) (by rfl) (by rfl)

/-- Claim C8: pull normalizes a null watermark to the sentinel 1 before
the queries run (so a null watermark pulls every record whose creation
watermark exceeds 1, i.e. all real records), and a non-zero supplied
watermark is used in the queries as given. -/
theorem pull_watermark_normalization :
    safeLastPulledAt none = 1 ∧
    (∀ v : Int, v ≠ 0 → safeLastPulledAt (some v) = v) ∧
    (∀ (nowTs sv : Int) (store : Store),
        pullChanges nowTs { lastPulledAt := none, schemaVersion := sv, migration := none } store =
          Except.ok (mkPullResponse nowTs (createdQuery 1 store) (updatedQuery 1 store))) ∧
    (∀ (nowTs sv v : Int) (store : Store), v ≠ 0 →
        pullChanges nowTs { lastPulledAt := some v, schemaVersion := sv, migration := none } store =
          Except.ok (mkPullResponse nowTs (createdQuery v store) (updatedQuery v store))) ∧
    (∀ store : Store, (∀ t ∈ store, 1 < t.serverCreatedAt) → createdQuery 1 store = store) := by
  refine ⟨rfl, ?_, ?_, ?_, ?_⟩
  · intro v hv
    simp [safeLastPulledAt, hv]
  · intro nowTs sv store
    rw [pullChanges_not_migrating (by simp [jsTruthyString])]
    rfl
  · intro nowTs sv v store hv
    have hs : safeLastPulledAt (some v) = v := by simp [safeLastPulledAt, hv]
    rw [pullChanges_not_migrating (by simp [jsTruthyString]), hs]
  · intro store hall
    rw [createdQuery, List.filter_eq_self]
    intro a ha
    exact decide_eq_true (hall a ha)

/-- Claim C8 witness: concrete instances of each normalization fact. -/
theorem pull_watermark_normalization_witness :
    safeLastPulledAt (some 7) = 7 ∧
    pullChanges 9 { lastPulledAt := none, schemaVersion := 1, migration := none } [exTask] =
      Except.ok (mkPullResponse 9 (createdQuery 1 [exTask]) (updatedQuery 1 [exTask])) ∧
    createdQuery 1 [exTask] = [exTask] :=
  ⟨pull_watermark_normalization.2.1 7 (by decide),
   pull_watermark_normalization.2.2.1 9 1 [exTask],
   pull_watermark_normalization.2.2.2.2 [exTask] (by decide)⟩

/-- Claim C9: the watermark guard is JavaScript truthiness, so a zero
watermark is normalized to the sentinel 1 exactly like a null one, and a
pull with lastPulledAt 0 returns the very same response as a pull with
lastPulledAt null. -/
theorem pull_zero_watermark_truthiness (nowTs sv : Int) (m : Option String) (store : Store) :
    safeLastPulledAt (some 0) = 1 ∧
    pullChanges nowTs { lastPulledAt := some 0, schemaVersion := sv, migration := m } store =
      pullChanges nowTs { lastPulledAt := none, schemaVersion := sv, migration := m } store :=
  ⟨rfl, rfl⟩

/-- Claim C10, counterexample: the empty string is a non-null migration
string that is not valid JSON, yet with schemaVersion 2 the pull
succeeds (the empty string is falsy, so the parse is never reached),
contradicting the claim that every such pull fails. -/
theorem pull_empty_migration_counterexample :
    pullChanges 100 { lastPulledAt := some 5, schemaVersion := 2, migration := some "" } [] =
      Except.ok (mkPullResponse 100 [] []) ∧
    (parseJson "").isOk = false :=
  ⟨rfl, rfl⟩

/-- Claim C10 (amended): with schemaVersion at least 2 and a non-null,
non-empty migration string that is not valid JSON, the unguarded parse
throws and the pull fails before returning a response. -/
theorem pull_invalid_migration_fails
    (nowTs : Int) (w : Option Int) (sv : Int) (s e : String) (store : Store)
    (hsv : 2 ≤ sv) (hs : s ≠ "") (hp : parseJson s = Except.error e) :
    pullChanges nowTs { lastPulledAt := w, schemaVersion := sv, migration := some s } store =
      Except.error e := by
  apply pullChanges_parse_error
  · simp [jsTruthyString, hsv, hs]
  · simpa using hp

/-- Claim C10 witness: the error branch is reachable at a concrete
invalid migration string. -/
theorem pull_invalid_migration_fails_witness :
    pullChanges 3 { lastPulledAt := none, schemaVersion := 2, migration := some notJson } [] =
      Except.error "SyntaxError" :=
  pull_invalid_migration_fails 3 none 2 notJson "SyntaxError" [] (by decide) (by decide) (by rfl)

/-! ### Claim theorems: push reconciler -/

/-- Claim C2: pushing a created record whose id is already stored leaves
exactly one stored record with that id; the push succeeds (no
duplicate-key error) and the stored record is the merge of the inbound
payload into the previous record. -/
theorem push_create_existing_id_idempotent
    (now : Int) (c : WireTask) (store : Store) (t : Task) (lpa : Option Int)
    (hids : (store.map (fun u => u.id)).Nodup)
    (ht : findUnique store c.id = some t) :
    pushChanges now
        { changes := { tasks := { created := some [c], updated := none, deleted := none } }
          lastPulledAt := lpa } store =
      Except.ok (store.map (fun u => if u.id = c.id then applyPatch now u (toPatch c) else u)) ∧
    (store.map (fun u => if u.id = c.id then applyPatch now u (toPatch c) else u)).countP
        (fun u => u.id == c.id) = 1 ∧
    findUnique (store.map (fun u => if u.id = c.id then applyPatch now u (toPatch c) else u))
        c.id = some (applyPatch now t (toPatch c)) := by
  obtain ⟨htmem, htid⟩ := findUnique_some_mem ht
  set f := fun u : Task => if u.id = c.id then applyPatch now u (toPatch c) else u with hf
  have hfnid : ∀ u : Task, (f u).id = u.id := by
    intro u
    by_cases h : u.id = c.id
    · simp [hf, h, applyPatch_id]
    · simp [hf, h]
  refine ⟨?_, ?_, ?_⟩
  · have hstage : stageCreates now store [c] = ([], [toPatch c]) := by
      rw [stageCreates, stageCreates, ht]
    have hupd : updateOne now store (toPatch c) = Except.ok (store.map f) := by
      unfold updateOne
      simp [toPatch_id, ht, hf]
    simp [pushChanges, hstage, createMany_nil, applyPatches, hupd]
  · have hmemid : c.id ∈ store.map (fun u => u.id) := List.mem_map.mpr ⟨t, htmem, htid⟩
    calc (store.map f).countP (fun u => u.id == c.id)
        = store.countP ((fun u : Task => u.id == c.id) ∘ f) := List.countP_map _ _ _
      _ = store.countP (fun u => u.id == c.id) :=
          List.countP_congr (by intro x hx; simp [Function.comp, hfnid x])
      _ = (store.map (fun u => u.id)).countP (fun x => x == c.id) :=
          (List.countP_map (fun x => x == c.id) (fun u : Task => u.id) store).symm
      _ = List.count c.id (store.map (fun u => u.id)) := (List.count_eq_countP _ _).symm
      _ = 1 := List.count_eq_one_of_mem hids hmemid
  · show (store.map f).find? (fun u => u.id == c.id) = some (applyPatch now t (toPatch c))
    have hcomp : ((fun u : Task => u.id == c.id) ∘ f) = fun u : Task => u.id == c.id := by
      funext u
      simp [Function.comp, hfnid u]
    have ht' : store.find? (fun u => u.id == c.id) = some t := ht
    rw [List.find?_map, hcomp, ht']
    simp [hf, htid]

/-- Claim C2 witness: a concrete retried create on a one-record store. -/
theorem push_create_existing_id_idempotent_witness :
    pushChanges 7
        { changes := { tasks := { created := some [exUpd], updated := none, deleted := none } }
          lastPulledAt := none } [exTask] =
      Except.ok ([exTask].map
        (fun u => if u.id = exUpd.id then applyPatch 7 u (toPatch exUpd) else u)) ∧
    (([exTask].map
        (fun u => if u.id = exUpd.id then applyPatch 7 u (toPatch exUpd) else u)).countP
        (fun u => u.id == exUpd.id)) = 1 ∧
    findUnique ([exTask].map
        (fun u => if u.id = exUpd.id then applyPatch 7 u (toPatch exUpd) else u))
        exUpd.id = some (applyPatch 7 exTask (toPatch exUpd)) :=
  push_create_existing_id_idempotent 7 exUpd [exTask] exTask none (by decide) (by rfl)

/-- Claim C4: the merge patch built by push from any inbound record
always overwrites name, icon and the done flag, overwrites the urgency
flag and the comment only when they are present in the payload, and
preserves the stored value when they are absent. -/
theorem push_merge_patch_fields (now : Int) (t : Task) (u : WireTask) :
    (applyPatch now t (toPatch u)).name = u.name ∧
    (applyPatch now t (toPatch u)).icon = u.icon ∧
    (applyPatch now t (toPatch u)).isDone = u.is_done ∧
    (applyPatch now t (toPatch u)).isUrgent =
      (match u.is_urgent with
       | some b => some b
       | none => t.isUrgent) ∧
    (applyPatch now t (toPatch u)).comment =
      (match u.comment with
       | some c => some c
       | none => t.comment) :=
  ⟨rfl, rfl, rfl, rfl, rfl⟩

/-- Claim C5: pushing a batch of records with fresh, pairwise distinct
ids into an empty store succeeds with every record persisted, and a
subsequent pull at the null-sentinel watermark 1 returns the full batch
as created and nothing as updated. -/
theorem push_pull_round_trip
    (now nowTs sv : Int) (batch : List WireTask) (lpa : Option Int)
    (hnodup : (batch.map (fun c => c.id)).Nodup) (hnow : 1 < now) :
    pushChanges now
        { changes := { tasks := { created := some batch, updated := none, deleted := none } }
          lastPulledAt := lpa } ([] : Store) =
      Except.ok (batch.map (newTask now)) ∧
    pullChanges nowTs { lastPulledAt := some 1, schemaVersion := sv, migration := none }
        (batch.map (newTask now)) =
      Except.ok (mkPullResponse nowTs (batch.map (newTask now)) []) ∧
    ((batch.map (newTask now)).map taskToWire).length = batch.length := by
  have hids : ((batch.map (newTask now)).map (fun t => t.id)).Nodup := by
    rw [List.map_map]
    simpa [Function.comp, newTask_id] using hnodup
  have hcm : createMany ([] : Store) (batch.map (newTask now)) =
      Except.ok (batch.map (newTask now)) := by
    unfold createMany
    rw [if_pos]
    · rw [List.nil_append]
    · exact ⟨hids, fun t ht => rfl⟩
  refine ⟨?_, ?_, ?_⟩
  · simp [pushChanges, stageCreates_empty_store, hcm, applyPatches]
  · have hcq : createdQuery 1 (batch.map (newTask now)) = batch.map (newTask now) := by
      rw [createdQuery, List.filter_eq_self]
      intro a ha
      obtain ⟨c, hc, rfl⟩ := List.mem_map.mp ha
      exact decide_eq_true hnow
    have huq : updatedQuery 1 (batch.map (newTask now)) = [] := by
      rw [updatedQuery, List.filter_eq_nil_iff]
      intro a ha
      obtain ⟨c, hc, rfl⟩ := List.mem_map.mp ha
      simp [newTask]
    rw [pullChanges_not_migrating (by simp [jsTruthyString])]
    simp [safeLastPulledAt, hcq, huq]
  · rw [List.length_map, List.length_map]

/-- Claim C5 witness: a two-record batch round trip. -/
theorem push_pull_round_trip_witness :
    pushChanges 7
        { changes :=
            { tasks := { created := some [exWire, exWire2], updated := none, deleted := none } }
          lastPulledAt := none } ([] : Store) =
      Except.ok ([exWire, exWire2].map (newTask 7)) ∧
    pullChanges 50 { lastPulledAt := some 1, schemaVersion := 1, migration := none }
        ([exWire, exWire2].map (newTask 7)) =
      Except.ok (mkPullResponse 50 ([exWire, exWire2].map (newTask 7)) []) ∧
    (([exWire, exWire2].map (newTask 7)).map taskToWire).length = [exWire, exWire2].length :=
  push_pull_round_trip 7 50 1 [exWire, exWire2] none (by decide) (by decide)

/-- Claim C6: every record that a successful push adds to the store (an
id not stored before) carries `serverCreatedAt = serverUpdatedAt = now`,
the single transaction-wide timestamp, so all records created by one
push share the same creation watermark. -/
theorem push_creates_single_now_stamp
    (now : Int) (input : PushInput) (store store1 : Store)
    (h : pushChanges now input store = Except.ok store1) :
    ∀ t1 ∈ store1, t1.id ∉ store.map (fun t => t.id) →
      t1.serverCreatedAt = now ∧ t1.serverUpdatedAt = now := by
  intro t1 ht1 hnot
  simp only [pushChanges] at h
  split at h
  · exact Except.noConfusion h
  · rename_i store2 heq
    obtain ⟨hs2, hfresh⟩ := createMany_ok heq
    obtain ⟨t2, ht2, hid, hsc, hsu⟩ := applyPatches_trace h t1 ht1
    rw [hs2] at ht2
    rcases List.mem_append.mp ht2 with hmem | hmem
    · exact absurd (List.mem_map.mpr ⟨t2, hmem, hid.symm⟩) hnot
    · obtain ⟨hc1, hc2⟩ := stageCreates_stamped t2 hmem
      refine ⟨hsc.trans hc1, ?_⟩
      rcases hsu with h1 | h1
      · exact h1.trans hc2
      · exact h1

/-- Claim C6 witness: one genuine create into the empty store is stamped
with the transaction time 7 on both server watermarks. -/
theorem push_creates_single_now_stamp_witness :
    (newTask 7 exWire).serverCreatedAt = 7 ∧ (newTask 7 exWire).serverUpdatedAt = 7 :=
  push_creates_single_now_stamp 7 exPushNew [] [newTask 7 exWire] (by rfl)
    (newTask 7 exWire) (by simp) (by simp)

/-- Claim C7: applying an update patch stamps `serverUpdatedAt` with the
transaction's now and does not touch `serverCreatedAt`; across any
successful push, every surviving record keeps the `serverCreatedAt` it
had in the store before the push. -/
theorem push_update_stamps_and_frame
    (now : Int) (input : PushInput) (store store1 : Store)
    (hids : (store.map (fun t => t.id)).Nodup)
    (h : pushChanges now input store = Except.ok store1) :
    (∀ (t : Task) (p : TaskPatch),
        (applyPatch now t p).serverUpdatedAt = now ∧
        (applyPatch now t p).serverCreatedAt = t.serverCreatedAt) ∧
    ∀ t1 ∈ store1, ∀ t ∈ store, t1.id = t.id → t1.serverCreatedAt = t.serverCreatedAt := by
  refine ⟨fun t p => ⟨rfl, rfl⟩, ?_⟩
  intro t1 ht1 t ht hid1
  simp only [pushChanges] at h
  split at h
  · exact Except.noConfusion h
  · rename_i store2 heq
    obtain ⟨hs2, hfresh⟩ := createMany_ok heq
    obtain ⟨t2, ht2, hid, hsc, _⟩ := applyPatches_trace h t1 ht1
    rw [hs2] at ht2
    rcases List.mem_append.mp ht2 with hmem | hmem
    · have ht2t : t2 = t := List.inj_on_of_nodup_map hids hmem ht (hid.symm.trans hid1)
      rw [hsc, ht2t]
    · exfalso
      have hfr := stageCreates_fresh t2 hmem
      exact findUnique_eq_none_iff.mp hfr t ht (hid1.symm.trans hid)

/-- Claim C7 witness: a concrete original update on a one-record store
keeps the record's creation watermark 5 and stamps the update watermark
with the push's now 7. -/
theorem push_update_stamps_and_frame_witness :
    (applyPatch 7 exTask (toPatch exUpd)).serverUpdatedAt = 7 ∧
    (applyPatch 7 exTask (toPatch exUpd)).serverCreatedAt = exTask.serverCreatedAt :=
  (push_update_stamps_and_frame 7 exPushUpd [exTask] [applyPatch 7 exTask (toPatch exUpd)]
    (by decide) (by rfl)).1 exTask (toPatch exUpd)

end Watermelon
